import Mathlib

/-!
Shallow embedding of two Substrate components:

* `srml/session/src/lib.rs` — the validator session-rotation engine
  (`Module<T>` with storage items Validators, SessionLength, CurrentIndex,
  CurrentStart, ForcingNewSession, LastLengthChange, NextKeyFor,
  NextSessionLength).
* `srml/support/src/storage/hashed/generator.rs` — the `HashedStorage`
  adapter trait (exists/get/put/kill and the derived `take`).

Concrete type instantiations follow the module's test configuration:
`AccountId = u64`, `BlockNumber = u64`, `Moment = u64`, `SessionKey` a
numeric key with `Default` = 0.  Machine integers are modelled as `Nat`;
unsigned subtraction is `Nat` truncated subtraction (the code only
subtracts on non-underflowing paths), and `%` is `Nat.mod`.
-/

namespace Session

/-- The persisted storage of the session module (one field per item of
`decl_storage!`).  `NextKeyFor` is the map `AccountId => Option SessionKey`,
modelled extensionally. -/
structure SessionState where
  validators : List Nat
  sessionLength : Nat
  currentIndex : Nat
  currentStart : Nat
  forcingNewSession : Option Bool
  lastLengthChange : Option Nat
  nextKeyFor : Nat → Option Nat
  nextSessionLength : Option Nat

/-- State of the external consensus authority registry, recording the
`set_authority_count` / `set_authority` pushes made by `rotate_session`. -/
structure ConsensusState where
  authorityCount : Nat
  authorities : Nat → Option Nat

/-- External read-only collaborators of the module: the timestamp module
(`now`), the system module (`block_number`) and the runtime's
`ConvertAccountIdToSessionKey`. -/
structure Env where
  now : Nat
  blockNumber : Nat
  convert : Nat → Option Nat

/-- `consensus::Module::set_authority_count`. -/
def set_authority_count (n : Nat) (c : ConsensusState) : ConsensusState :=
  { c with authorityCount := n }

/-- `consensus::Module::set_authority`. -/
def set_authority (i : Nat) (key : Nat) (c : ConsensusState) : ConsensusState :=
  { c with authorities := fun j => if j = i then some key else c.authorities j }

/-- The `for (i, v) in v.into_iter().enumerate()` loop of `rotate_session`,
pushing one `set_authority` per validator starting at index `i`. -/
def setAuthoritiesFrom (resolve : Nat → Nat) (i : Nat) (vs : List Nat)
    (c : ConsensusState) : ConsensusState :=
  match vs with
  | [] => c
  | v :: rest => setAuthoritiesFrom resolve (i + 1) rest (set_authority i (resolve v) c)

/-- `Module::last_length_change`: the stored anchor, or zero if absent. -/
def last_length_change (s : SessionState) : Nat :=
  s.lastLengthChange.getD 0

/-- `Module::validator_count`. -/
def validator_count (s : SessionState) : Nat :=
  s.validators.length

/-- `set_key(origin, key)` after `ensure_signed` has produced `who`:
`<NextKeyFor<T>>::insert(who, key)`. -/
def set_key (who key : Nat) (s : SessionState) : SessionState :=
  { s with nextKeyFor := fun a => if a = who then some key else s.nextKeyFor a }

/-- `set_length(new)`: `<NextSessionLength<T>>::put(new)`. -/
def set_length (new : Nat) (s : SessionState) : SessionState :=
  { s with nextSessionLength := some new }

/-- `apply_force_new_session(apply_rewards)`:
`<ForcingNewSession<T>>::put(apply_rewards)`. -/
def apply_force_new_session (apply_rewards : Bool) (s : SessionState) : SessionState :=
  { s with forcingNewSession := some apply_rewards }

/-- `Module::set_validators` (called by staking). -/
def set_validators (new : List Nat) (s : SessionState) : SessionState :=
  { s with validators := new }

/-- The per-validator key resolution of `rotate_session`:
`<NextKeyFor<T>>::get(&v).or_else(|| convert(v)).unwrap_or_default()`. -/
def resolve_key (env : Env) (s : SessionState) (v : Nat) : Nat :=
  ((s.nextKeyFor v).orElse (fun _ => env.convert v)).getD 0

/-- The full observable state: the module's storage, the external authority
registry, the deposited `NewSession` events, and the
`OnSessionChange::on_session_change(time_elapsed, should_reward)` hook
invocations (both logs in invocation order). -/
structure World where
  session : SessionState
  cons : ConsensusState
  events : List Nat
  hooks : List (Nat × Bool)

/-- `Module::rotate_session(is_final_block, apply_rewards)`: bump the index,
record the start time, enact a pending length change, realign the anchor when
needed, fire the session-change hook, and re-register the authority set for
the current validators. -/
def rotate_session (env : Env) (is_final_block apply_rewards : Bool)
    (w : World) : World :=
  let s := w.session
  let now := env.now
  let time_elapsed := now - s.currentStart
  let session_index := s.currentIndex + 1
  let len_changed := s.nextSessionLength.isSome
  let sessionLength' := s.nextSessionLength.getD s.sessionLength
  let lastLengthChange' :=
    if len_changed || !is_final_block then some env.blockNumber else s.lastLengthChange
  let s' : SessionState :=
    { s with
      currentIndex := session_index
      currentStart := now
      sessionLength := sessionLength'
      nextSessionLength := none
      lastLengthChange := lastLengthChange' }
  let c' := setAuthoritiesFrom (resolve_key env s) 0 s.validators
    (set_authority_count s.validators.length w.cons)
  { session := s'
    cons := c'
    events := w.events ++ [session_index]
    hooks := w.hooks ++ [(time_elapsed, apply_rewards)] }

/-- The pair `(should_end_session, apply_rewards)` computed by
`check_rotate_session` from the taken forcing flag. -/
def should_end_session (forcing : Option Bool) (is_final_block : Bool) : Bool × Bool :=
  match forcing with
  | none => (is_final_block, is_final_block)
  | some apply_rewards => (true, apply_rewards)

/-- `Module::check_rotate_session(block_number)`: compute `is_final_block`,
take the forcing flag, and rotate when required. -/
def check_rotate_session (env : Env) (block_number : Nat) (w : World) : World :=
  let s := w.session
  let is_final_block := (block_number - last_length_change s) % s.sessionLength == 0
  let forcing := s.forcingNewSession
  let w1 := { w with session := { s with forcingNewSession := none } }
  let p := should_end_session forcing is_final_block
  if p.1 then rotate_session env is_final_block p.2 w1
  else w1

/-- `Module::blocks_remaining`. -/
def blocks_remaining (env : Env) (s : SessionState) : Nat :=
  let length := s.sessionLength
  let length_minus_1 := length - 1
  let block_number := env.blockNumber
  length_minus_1 - (block_number - last_length_change s + length_minus_1) % length

/-- `OnFreeBalanceZero::on_free_balance_zero`: `<NextKeyFor<T>>::remove(who)`. -/
def on_free_balance_zero (who : Nat) (s : SessionState) : SessionState :=
  { s with nextKeyFor := fun a => if a = who then none else s.nextKeyFor a }

/-- The externally triggerable operations of the session engine.
`checkRotate` carries the block's timestamp and number; `on_finalize(n)`
invokes `check_rotate_session(n)` with the system block number equal to `n`. -/
inductive Op where
  | setKey (who key : Nat)
  | setLength (new : Nat)
  | forceNewSession (applyRewards : Bool)
  | checkRotate (now blockNumber : Nat)

/-- One engine operation applied to the world (`convert` is the runtime's
fixed account-to-key conversion). -/
def stepOp (convert : Nat → Option Nat) (w : World) (op : Op) : World :=
  match op with
  | .setKey who key => { w with session := set_key who key w.session }
  | .setLength new => { w with session := set_length new w.session }
  | .forceNewSession r => { w with session := apply_force_new_session r w.session }
  | .checkRotate now bn => check_rotate_session ⟨now, bn, convert⟩ bn w

/-- Run a sequence of engine operations. -/
def runOps (convert : Nat → Option Nat) (ops : List Op) (w : World) : World :=
  match ops with
  | [] => w
  | op :: rest => runOps convert rest (stepOp convert w op)

/-- Whether `check_rotate_session(block_number)` rotates in state `s`. -/
def rotates (block_number : Nat) (s : SessionState) : Bool :=
  s.forcingNewSession.isSome ||
    ((block_number - last_length_change s) % s.sessionLength == 0)

/-- Number of rotations performed by a sequence of operations. -/
def countRotations (convert : Nat → Option Nat) (ops : List Op) (w : World) : Nat :=
  match ops with
  | [] => 0
  | op :: rest =>
    (match op with
     | .checkRotate _ bn => if rotates bn w.session then 1 else 0
     | _ => 0) + countRotations convert rest (stepOp convert w op)

/-- The `decl_storage!` genesis configuration of the session module. -/
structure GenesisConfig where
  validators : List Nat
  session_length : Nat
  keys : List (Nat × Nat)

/-- Association-list lookup used to build `NextKeyFor` from `config.keys`. -/
def lookupKey : List (Nat × Nat) → Nat → Option Nat
  | [], _ => none
  | (a, k) :: rest, who => if who = a then some k else lookupKey rest who

/-- The genesis session state built by `decl_storage!`: `CurrentIndex = 0`,
`CurrentStart = 0`, no forcing, no anchor, no pending length. -/
def genesis (cfg : GenesisConfig) : SessionState :=
  { validators := cfg.validators
    sessionLength := cfg.session_length
    currentIndex := 0
    currentStart := 0
    forcingNewSession := none
    lastLengthChange := none
    nextKeyFor := lookupKey cfg.keys
    nextSessionLength := none }

/-- An empty authority registry. -/
def emptyConsensus : ConsensusState :=
  { authorityCount := 0, authorities := fun _ => none }

/-- The world at genesis: configured session storage, a given registry, and
no notifications emitted yet. -/
def genesisWorld (cfg : GenesisConfig) (c : ConsensusState) : World :=
  { session := genesis cfg, cons := c, events := [], hooks := [] }

end Session

namespace HashedGen

/-- Raw byte strings of the key-value backend. -/
abbrev Bytes := List Nat

/-- The raw byte-oriented backend underneath a `HashedStorage` instance. -/
structure RawStorage where
  mem : Bytes → Option Bytes

/-- `HashedStorage::exists`: hash the key, test presence. -/
def hs_exists (hash : Bytes → Bytes) (σ : RawStorage) (key : Bytes) : Bool :=
  (σ.mem (hash key)).isSome

/-- `HashedStorage::get`: hash the key, decode the stored bytes if present. -/
def hs_get {V : Type} (hash : Bytes → Bytes) (decode : Bytes → Option V)
    (σ : RawStorage) (key : Bytes) : Option V :=
  (σ.mem (hash key)).bind decode

/-- `HashedStorage::put`: hash the key, store the encoded value. -/
def hs_put {V : Type} (hash : Bytes → Bytes) (encode : V → Bytes)
    (σ : RawStorage) (key : Bytes) (val : V) : RawStorage :=
  ⟨fun k => if k = hash key then some (encode val) else σ.mem k⟩

/-- `HashedStorage::kill`: hash the key, remove the entry. -/
def hs_kill (hash : Bytes → Bytes) (σ : RawStorage) (key : Bytes) : RawStorage :=
  ⟨fun k => if k = hash key then none else σ.mem k⟩

/-- `HashedStorage::take` (trait default method): read via `get`, then
`kill`, returning the read value together with the updated backend. -/
def hs_take {V : Type} (hash : Bytes → Bytes) (decode : Bytes → Option V)
    (σ : RawStorage) (key : Bytes) : Option V × RawStorage :=
  let value := hs_get hash decode σ key
  (value, hs_kill hash σ key)

end HashedGen

namespace Session

lemma setAuthoritiesFrom_authorityCount (resolve : Nat → Nat) (vs : List Nat) :
    ∀ (i : Nat) (c : ConsensusState),
      (setAuthoritiesFrom resolve i vs c).authorityCount = c.authorityCount := by
  induction vs with
  | nil => intro i c; rfl
  | cons v rest ih =>
    intro i c
    simp only [setAuthoritiesFrom, ih]
    rfl

lemma setAuthoritiesFrom_below (resolve : Nat → Nat) (vs : List Nat) :
    ∀ (i j : Nat) (c : ConsensusState), j < i →
      (setAuthoritiesFrom resolve i vs c).authorities j = c.authorities j := by
  induction vs with
  | nil => intro i j c _; rfl
  | cons v rest ih =>
    intro i j c hj
    simp only [setAuthoritiesFrom]
    rw [ih (i + 1) j _ (Nat.lt_succ_of_lt hj)]
    simp only [set_authority]
    rw [if_neg (Nat.ne_of_lt hj)]

lemma setAuthoritiesFrom_get (resolve : Nat → Nat) (vs : List Nat) :
    ∀ (i j : Nat) (c : ConsensusState) (h : j < vs.length),
      (setAuthoritiesFrom resolve i vs c).authorities (i + j)
        = some (resolve (vs.get ⟨j, h⟩)) := by
  induction vs with
  | nil => intro i j c h; exact absurd h (Nat.not_lt_zero j)
  | cons v rest ih =>
    intro i j c h
    cases j with
    | zero =>
      simp only [setAuthoritiesFrom]
      rw [setAuthoritiesFrom_below resolve rest (i + 1) (i + 0) _ (by omega)]
      simp [set_authority]
    | succ j =>
      simp only [setAuthoritiesFrom]
      have hj : j < rest.length := Nat.lt_of_succ_lt_succ h
      have := ih (i + 1) j (set_authority i (resolve v) c) hj
      rw [show i + (j + 1) = (i + 1) + j by omega, this]
      rfl

lemma rotate_session_authorities (env : Env) (f r : Bool) (w : World)
    (i : Nat) (h : i < w.session.validators.length) :
    (rotate_session env f r w).cons.authorities i
      = some (resolve_key env w.session (w.session.validators.get ⟨i, h⟩)) := by
  have := setAuthoritiesFrom_get (resolve_key env w.session) w.session.validators 0 i
    (set_authority_count w.session.validators.length w.cons) h
  simpa [rotate_session] using this

end Session

namespace Session

/-- C2: every `rotate_session(is_final_block, apply_rewards)` sets
`LastLengthChange` to the current block number exactly when a pending
session-length change was consumed or `is_final_block` is false, and leaves
it unchanged otherwise; in particular a forced rotation at a non-boundary
block resets the anchor to that block. -/
theorem rotate_session_anchor_spec (env : Env) (f r : Bool) (w : World) :
    ((rotate_session env f r w).session.lastLengthChange
      = if w.session.nextSessionLength.isSome || !f then some env.blockNumber
        else w.session.lastLengthChange)
    ∧ (w.session.nextSessionLength.isSome = true ∨ f = false →
        (rotate_session env f r w).session.lastLengthChange = some env.blockNumber)
    ∧ (w.session.nextSessionLength = none → f = true →
        (rotate_session env f r w).session.lastLengthChange
          = w.session.lastLengthChange) := by
  refine ⟨rfl, ?_, ?_⟩
  · intro h
    simp only [rotate_session]
    rcases h with h | h
    · rw [h]; rfl
    · rw [h]
      simp
  · intro h hf
    simp [rotate_session, h, hf]

theorem rotate_session_anchor_spec_witness :
    ((Session.genesis ⟨[], 2, []⟩).nextSessionLength.isSome = true ∨ false = false)
    ∧ (rotate_session ⟨0, 1, fun _ => none⟩ false true
        (genesisWorld ⟨[], 2, []⟩ emptyConsensus)).session.lastLengthChange = some 1 :=
  ⟨Or.inr rfl,
   (rotate_session_anchor_spec ⟨0, 1, fun _ => none⟩ false true
      (genesisWorld ⟨[], 2, []⟩ emptyConsensus)).2.1 (Or.inr rfl)⟩

/-- C5: `set_length(new)` only schedules `NextSessionLength = some new`,
leaving every other storage item unchanged; every `rotate_session` consumes
the pending length (leaving it absent) and the post-rotation `SessionLength`
is the pending value when one was present, otherwise the old length. -/
theorem set_length_deferred_spec (new : Nat) (env : Env) (f r : Bool)
    (s : SessionState) (w : World) :
    ((set_length new s).nextSessionLength = some new
      ∧ (set_length new s).sessionLength = s.sessionLength
      ∧ (set_length new s).validators = s.validators
      ∧ (set_length new s).currentIndex = s.currentIndex
      ∧ (set_length new s).currentStart = s.currentStart
      ∧ (set_length new s).forcingNewSession = s.forcingNewSession
      ∧ (set_length new s).lastLengthChange = s.lastLengthChange
      ∧ (set_length new s).nextKeyFor = s.nextKeyFor)
    ∧ (rotate_session env f r w).session.nextSessionLength = none
    ∧ (rotate_session env f r w).session.sessionLength
        = w.session.nextSessionLength.getD w.session.sessionLength :=
  ⟨⟨rfl, rfl, rfl, rfl, rfl, rfl, rfl, rfl⟩, rfl, rfl⟩

/-- C8: `set_key(who, key)` stores `NextKeyFor[who] = key`, overwriting any
prior pending registration, and changes nothing else: every other storage
item, other accounts' pending keys, the authority registry and the emitted
notifications are unchanged. -/
theorem set_key_frame_spec (convert : Nat → Option Nat) (who key : Nat) (w : World) :
    ((stepOp convert w (.setKey who key)).session.nextKeyFor who = some key)
    ∧ (∀ a, a ≠ who →
        (stepOp convert w (.setKey who key)).session.nextKeyFor a
          = w.session.nextKeyFor a)
    ∧ (stepOp convert w (.setKey who key)).session.validators = w.session.validators
    ∧ (stepOp convert w (.setKey who key)).session.sessionLength = w.session.sessionLength
    ∧ (stepOp convert w (.setKey who key)).session.nextSessionLength
        = w.session.nextSessionLength
    ∧ (stepOp convert w (.setKey who key)).session.currentIndex = w.session.currentIndex
    ∧ (stepOp convert w (.setKey who key)).session.currentStart = w.session.currentStart
    ∧ (stepOp convert w (.setKey who key)).session.lastLengthChange
        = w.session.lastLengthChange
    ∧ (stepOp convert w (.setKey who key)).session.forcingNewSession
        = w.session.forcingNewSession
    ∧ (stepOp convert w (.setKey who key)).cons = w.cons
    ∧ (stepOp convert w (.setKey who key)).events = w.events
    ∧ (stepOp convert w (.setKey who key)).hooks = w.hooks := by
  refine ⟨?_, ?_, rfl, rfl, rfl, rfl, rfl, rfl, rfl, rfl, rfl, rfl⟩
  · simp [stepOp, set_key]
  · intro a ha
    simp [stepOp, set_key, ha]

theorem set_key_frame_spec_witness :
    (stepOp (fun _ => none) (genesisWorld ⟨[], 2, []⟩ emptyConsensus)
        (.setKey 4 9)).session.nextKeyFor 7 = none :=
  (set_key_frame_spec (fun _ => none) 4 9
      (genesisWorld ⟨[], 2, []⟩ emptyConsensus)).2.1 7 (by decide)

/-- C10: `rotate_session` reads `NextKeyFor` but never removes entries — every
account's pending key is unchanged by a rotation, and whenever a validator of
the current list has a pending key it is the one pushed for that validator's
index; `on_free_balance_zero(who)` deletes exactly `who`'s entry. -/
theorem next_key_persistence_spec (env : Env) (f r : Bool) (w : World)
    (who : Nat) (s : SessionState) :
    (∀ a, (rotate_session env f r w).session.nextKeyFor a = w.session.nextKeyFor a)
    ∧ ((on_free_balance_zero who s).nextKeyFor who = none)
    ∧ (∀ a, a ≠ who → (on_free_balance_zero who s).nextKeyFor a = s.nextKeyFor a)
    ∧ (∀ i (h : i < w.session.validators.length) k,
        w.session.nextKeyFor (w.session.validators.get ⟨i, h⟩) = some k →
        (rotate_session env f r w).cons.authorities i = some k) := by
  refine ⟨fun a => rfl, ?_, ?_, ?_⟩
  · simp [on_free_balance_zero]
  · intro a ha
    simp [on_free_balance_zero, ha]
  · intro i h k hk
    rw [rotate_session_authorities env f r w i h]
    simp only [List.get_eq_getElem] at hk
    simp [resolve_key, hk]

theorem next_key_persistence_spec_witness :
    (rotate_session ⟨0, 4, fun _ => none⟩ true true
        (stepOp (fun _ => none)
          (genesisWorld ⟨[1, 2, 3], 2, []⟩ emptyConsensus)
          (.setKey 2 5))).cons.authorities 1 = some 5 :=
  (next_key_persistence_spec ⟨0, 4, fun _ => none⟩ true true
      (stepOp (fun _ => none) (genesisWorld ⟨[1, 2, 3], 2, []⟩ emptyConsensus)
        (.setKey 2 5)) 0 (genesis ⟨[], 1, []⟩)).2.2.2 1 (by decide) 5 (by decide)

end Session

namespace HashedGen

/-- C9: the adapter's `take(k)` returns exactly what `get(k)` returns on the
same state (the decoded value when the hashed key is present, `none` when
absent), and afterwards the key is absent (`exists` false, `get` `none`);
`take` on an absent key returns `none` and leaves the backend unchanged. -/
theorem hashed_take_spec {V : Type} (hash : Bytes → Bytes) (decode : Bytes → Option V)
    (σ : RawStorage) (key : Bytes) :
    ((hs_take hash decode σ key).1 = hs_get hash decode σ key)
    ∧ (hs_exists hash (hs_take hash decode σ key).2 key = false)
    ∧ (hs_get hash decode (hs_take hash decode σ key).2 key = none)
    ∧ (∀ bs, σ.mem (hash key) = some bs → (hs_take hash decode σ key).1 = decode bs)
    ∧ (σ.mem (hash key) = none →
        (hs_take hash decode σ key).1 = none
        ∧ ∀ k, (hs_take hash decode σ key).2.mem k = σ.mem k) := by
  refine ⟨rfl, ?_, ?_, ?_, ?_⟩
  · simp [hs_take, hs_exists, hs_kill]
  · simp [hs_take, hs_get, hs_kill]
  · intro bs hbs
    simp [hs_take, hs_get, hbs]
  · intro habs
    refine ⟨by simp [hs_take, hs_get, habs], fun k => ?_⟩
    simp only [hs_take, hs_kill]
    by_cases hk : k = hash key
    · rw [if_pos hk, hk, habs]
    · rw [if_neg hk]

theorem hashed_take_spec_witness :
    ((hs_take (fun b => b) List.head?
        ⟨fun k => if k = [1] then some [5] else none⟩ [1]).1 = some 5)
    ∧ ((hs_take (fun b => b) List.head?
        ⟨fun k => if k = [1] then some [5] else none⟩ [2]).1 = none)
    ∧ ((hs_take (fun b => b) List.head?
        ⟨fun k => if k = [1] then some [5] else none⟩ [2]).2.mem [1] = some [5]) := by
  refine ⟨?_, ?_, ?_⟩
  · exact (hashed_take_spec (fun b => b) List.head?
      ⟨fun k => if k = [1] then some [5] else none⟩ [1]).2.2.2.1 [5] (by decide)
  · exact ((hashed_take_spec (fun b => b) List.head?
      ⟨fun k => if k = [1] then some [5] else none⟩ [2]).2.2.2.2 (by decide)).1
  · exact (((hashed_take_spec (fun b => b) List.head?
      ⟨fun k => if k = [1] then some [5] else none⟩ [2]).2.2.2.2 (by decide)).2 [1]).trans
      (by decide)

end HashedGen

namespace Session

/-- C6: every `rotate_session` pushes the length of the currently stored
validator list as the authority count and, for each index `i` of that list,
pushes authority `i` resolved as the pending key if present, else the
fallback conversion, else the default key — every index is resolved, so the
rotation always completes. -/
theorem rotate_session_authorities_spec (env : Env) (f r : Bool) (w : World) :
    ((rotate_session env f r w).cons.authorityCount = w.session.validators.length)
    ∧ (∀ i (h : i < w.session.validators.length),
        (rotate_session env f r w).cons.authorities i
          = some (((w.session.nextKeyFor (w.session.validators.get ⟨i, h⟩)).orElse
              (fun _ => env.convert (w.session.validators.get ⟨i, h⟩))).getD 0)) := by
  constructor
  · simp only [rotate_session]
    rw [setAuthoritiesFrom_authorityCount]
    rfl
  · intro i h
    exact rotate_session_authorities env f r w i h

theorem rotate_session_authorities_spec_witness :
    ((rotate_session ⟨0, 4, fun v => if v = 1 then some 11 else none⟩ true true
        (stepOp (fun v => if v = 1 then some 11 else none)
          (genesisWorld ⟨[1, 2, 3], 2, []⟩ emptyConsensus)
          (.setKey 2 5))).cons.authorityCount = 3)
    ∧ ((rotate_session ⟨0, 4, fun v => if v = 1 then some 11 else none⟩ true true
        (stepOp (fun v => if v = 1 then some 11 else none)
          (genesisWorld ⟨[1, 2, 3], 2, []⟩ emptyConsensus)
          (.setKey 2 5))).cons.authorities 0 = some 11)
    ∧ ((rotate_session ⟨0, 4, fun v => if v = 1 then some 11 else none⟩ true true
        (stepOp (fun v => if v = 1 then some 11 else none)
          (genesisWorld ⟨[1, 2, 3], 2, []⟩ emptyConsensus)
          (.setKey 2 5))).cons.authorities 1 = some 5)
    ∧ ((rotate_session ⟨0, 4, fun v => if v = 1 then some 11 else none⟩ true true
        (stepOp (fun v => if v = 1 then some 11 else none)
          (genesisWorld ⟨[1, 2, 3], 2, []⟩ emptyConsensus)
          (.setKey 2 5))).cons.authorities 2 = some 0) := by
  refine ⟨?_, ?_, ?_, ?_⟩
  · exact (rotate_session_authorities_spec ⟨0, 4, fun v => if v = 1 then some 11 else none⟩
      true true _).1.trans (by decide)
  · exact ((rotate_session_authorities_spec ⟨0, 4, fun v => if v = 1 then some 11 else none⟩
      true true _).2 0 (by decide)).trans (by decide)
  · exact ((rotate_session_authorities_spec ⟨0, 4, fun v => if v = 1 then some 11 else none⟩
      true true _).2 1 (by decide)).trans (by decide)
  · exact ((rotate_session_authorities_spec ⟨0, 4, fun v => if v = 1 then some 11 else none⟩
      true true _).2 2 (by decide)).trans (by decide)

/-- C1: `check_rotate_session(b)` computes `is_final_block` as
`((b - LastLengthChange.unwrap_or(0)) mod SessionLength) == 0`; a stored
forcing flag `some r` is consumed and `rotate_session(is_final_block, r)`
runs; with no forcing flag, `rotate_session(is_final_block, is_final_block)`
runs exactly when `is_final_block` holds, and otherwise the state is left
unchanged (the forcing entry is absent afterwards in every case). -/
theorem check_rotate_session_spec (env : Env) (n : Nat) (w : World) :
    ((check_rotate_session env n w).session.forcingNewSession = none)
    ∧ (∀ r, w.session.forcingNewSession = some r →
        check_rotate_session env n w
          = rotate_session env
              ((n - last_length_change w.session) % w.session.sessionLength == 0) r
              { w with session := { w.session with forcingNewSession := none } })
    ∧ (w.session.forcingNewSession = none →
        (n - last_length_change w.session) % w.session.sessionLength = 0 →
        check_rotate_session env n w = rotate_session env true true w)
    ∧ (w.session.forcingNewSession = none →
        (n - last_length_change w.session) % w.session.sessionLength ≠ 0 →
        check_rotate_session env n w = w) := by
  obtain ⟨⟨vals, len, idx, st, fo, llc, nkf, nsl⟩, c, ev, hk⟩ := w
  refine ⟨?_, ?_, ?_, ?_⟩
  · simp only [check_rotate_session]
    split
    · rfl
    · rfl
  · intro r hf
    cases hf
    rfl
  · intro hf hb
    cases hf
    simp [check_rotate_session, should_end_session, hb]
  · intro hf hb
    cases hf
    simp [check_rotate_session, should_end_session, hb]

theorem check_rotate_session_spec_witness :
    (check_rotate_session ⟨0, 1, fun _ => none⟩ 1
        (genesisWorld ⟨[1], 2, []⟩ emptyConsensus)
      = genesisWorld ⟨[1], 2, []⟩ emptyConsensus)
    ∧ (check_rotate_session ⟨0, 2, fun _ => none⟩ 2
        (genesisWorld ⟨[1], 2, []⟩ emptyConsensus)
      = rotate_session ⟨0, 2, fun _ => none⟩ true true
          (genesisWorld ⟨[1], 2, []⟩ emptyConsensus)) :=
  ⟨(check_rotate_session_spec ⟨0, 1, fun _ => none⟩ 1
      (genesisWorld ⟨[1], 2, []⟩ emptyConsensus)).2.2.2 rfl (by decide),
   (check_rotate_session_spec ⟨0, 2, fun _ => none⟩ 2
      (genesisWorld ⟨[1], 2, []⟩ emptyConsensus)).2.2.1 rfl (by decide)⟩

/-- C3: `blocks_remaining()` equals
`(L - 1) - ((current_block - anchor + L - 1) mod L)` for session length `L`
and anchor `last_length_change()`; it returns `L - 1` at the first block of a
session and `0` at the session's final block. -/
theorem blocks_remaining_spec (env : Env) (s : SessionState)
    (hL : 0 < s.sessionLength) :
    (blocks_remaining env s
      = (s.sessionLength - 1)
        - ((env.blockNumber - last_length_change s + (s.sessionLength - 1))
            % s.sessionLength))
    ∧ ((env.blockNumber - last_length_change s) % s.sessionLength
          = 1 % s.sessionLength →
        blocks_remaining env s = s.sessionLength - 1)
    ∧ ((env.blockNumber - last_length_change s) % s.sessionLength = 0 →
        blocks_remaining env s = 0) := by
  refine ⟨rfl, ?_, ?_⟩
  · intro h
    have h2 : (env.blockNumber - last_length_change s + (s.sessionLength - 1))
          % s.sessionLength
        = (1 + (s.sessionLength - 1)) % s.sessionLength := by
      rw [Nat.add_mod, h, ← Nat.add_mod]
    have h3 : 1 + (s.sessionLength - 1) = s.sessionLength := by omega
    have h4 : (env.blockNumber - last_length_change s + (s.sessionLength - 1))
        % s.sessionLength = 0 := by
      rw [h2, h3, Nat.mod_self]
    show s.sessionLength - 1
        - (env.blockNumber - last_length_change s + (s.sessionLength - 1))
            % s.sessionLength
      = s.sessionLength - 1
    rw [h4, Nat.sub_zero]
  · intro h
    have hlt : s.sessionLength - 1 < s.sessionLength := by omega
    have h4 : (env.blockNumber - last_length_change s + (s.sessionLength - 1))
        % s.sessionLength = s.sessionLength - 1 := by
      rw [Nat.add_mod, h, Nat.zero_add, Nat.mod_eq_of_lt hlt,
        Nat.mod_eq_of_lt hlt]
    show s.sessionLength - 1
        - (env.blockNumber - last_length_change s + (s.sessionLength - 1))
            % s.sessionLength
      = 0
    rw [h4, Nat.sub_self]

theorem blocks_remaining_spec_witness :
    (blocks_remaining ⟨0, 1, fun _ => none⟩ (genesis ⟨[], 2, []⟩) = 1)
    ∧ (blocks_remaining ⟨0, 2, fun _ => none⟩ (genesis ⟨[], 2, []⟩) = 0) :=
  ⟨(blocks_remaining_spec ⟨0, 1, fun _ => none⟩ (genesis ⟨[], 2, []⟩)
      (by decide)).2.1 (by decide),
   (blocks_remaining_spec ⟨0, 2, fun _ => none⟩ (genesis ⟨[], 2, []⟩)
      (by decide)).2.2 (by decide)⟩

lemma check_rotate_currentIndex (env : Env) (n : Nat) (w : World) :
    (check_rotate_session env n w).session.currentIndex
      = w.session.currentIndex + (if rotates n w.session then 1 else 0) := by
  obtain ⟨⟨vals, len, idx, st, fo, llc, nkf, nsl⟩, c, ev, hk⟩ := w
  cases fo with
  | none =>
    simp only [check_rotate_session, rotates, should_end_session,
      Option.isSome_none, Bool.false_or]
    split
    · rfl
    · rfl
  | some r =>
    simp only [check_rotate_session, rotates, should_end_session,
      Option.isSome_some, Bool.true_or, if_true]
    rfl

lemma stepOp_currentIndex (convert : Nat → Option Nat) (w : World) (op : Op) :
    (stepOp convert w op).session.currentIndex
      = w.session.currentIndex
        + (match op with
           | .checkRotate _ bn => if rotates bn w.session then 1 else 0
           | _ => 0) := by
  cases op with
  | setKey who key => rfl
  | setLength new => rfl
  | forceNewSession b => rfl
  | checkRotate now bn => exact check_rotate_currentIndex ⟨now, bn, convert⟩ bn w

lemma runOps_currentIndex (convert : Nat → Option Nat) (ops : List Op) :
    ∀ w : World,
      (runOps convert ops w).session.currentIndex
        = w.session.currentIndex + countRotations convert ops w := by
  induction ops with
  | nil => intro w; rfl
  | cons op rest ih =>
    intro w
    simp only [runOps, countRotations]
    rw [ih, stepOp_currentIndex]
    omega

/-- C7: `CurrentIndex` is incremented by exactly one in every
`rotate_session`, is untouched by `set_key`, `set_length` and
`force_new_session`, is untouched by a `check_rotate_session` that performs
no rotation, and after any operation sequence equals its initial value plus
the number of rotations performed. -/
theorem current_index_spec (convert : Nat → Option Nat) (env : Env)
    (f r b : Bool) (who key new n : Nat) (ops : List Op) (w : World) :
    ((rotate_session env f r w).session.currentIndex = w.session.currentIndex + 1)
    ∧ ((stepOp convert w (.setKey who key)).session.currentIndex
        = w.session.currentIndex)
    ∧ ((stepOp convert w (.setLength new)).session.currentIndex
        = w.session.currentIndex)
    ∧ ((stepOp convert w (.forceNewSession b)).session.currentIndex
        = w.session.currentIndex)
    ∧ (rotates n w.session = false →
        (check_rotate_session env n w).session.currentIndex
          = w.session.currentIndex)
    ∧ ((runOps convert ops w).session.currentIndex
        = w.session.currentIndex + countRotations convert ops w) := by
  refine ⟨rfl, rfl, rfl, rfl, ?_, runOps_currentIndex convert ops w⟩
  intro hnr
  rw [check_rotate_currentIndex, hnr]
  rfl

theorem current_index_spec_witness :
    (check_rotate_session ⟨0, 1, fun _ => none⟩ 1
        (genesisWorld ⟨[1], 2, []⟩ emptyConsensus)).session.currentIndex
      = (genesisWorld ⟨[1], 2, []⟩ emptyConsensus).session.currentIndex :=
  (current_index_spec (fun _ => none) ⟨0, 1, fun _ => none⟩ true true true 0 0 0 1 []
      (genesisWorld ⟨[1], 2, []⟩ emptyConsensus)).2.2.2.2.1 (by decide)

/-- Inductive invariant for the session-length positivity argument: the
stored length is positive and any pending length is positive. -/
def LenInv (s : SessionState) : Prop :=
  0 < s.sessionLength ∧ ∀ m, s.nextSessionLength = some m → 0 < m

lemma rotate_LenInv (env : Env) (f r : Bool) (w : World) (h : LenInv w.session) :
    LenInv (rotate_session env f r w).session := by
  constructor
  · show 0 < w.session.nextSessionLength.getD w.session.sessionLength
    cases hn : w.session.nextSessionLength with
    | none => simpa using h.1
    | some m => simpa using h.2 m hn
  · intro m hm
    exact Option.noConfusion hm

lemma check_LenInv (env : Env) (n : Nat) (w : World) (h : LenInv w.session) :
    LenInv (check_rotate_session env n w).session := by
  simp only [check_rotate_session]
  split
  · exact rotate_LenInv _ _ _ _ h
  · exact h

lemma stepOp_LenInv (convert : Nat → Option Nat) (w : World) (op : Op)
    (hop : ∀ m, op = Op.setLength m → 0 < m) (h : LenInv w.session) :
    LenInv (stepOp convert w op).session := by
  cases op with
  | setKey who key => exact h
  | setLength m =>
    refine ⟨h.1, fun m' hm => ?_⟩
    injection hm with hmm
    exact hmm ▸ hop m rfl
  | forceNewSession b => exact h
  | checkRotate now bn => exact check_LenInv ⟨now, bn, convert⟩ bn w h

lemma runOps_LenInv (convert : Nat → Option Nat) (ops : List Op) :
    ∀ w : World, (∀ m, Op.setLength m ∈ ops → 0 < m) → LenInv w.session →
      LenInv (runOps convert ops w).session := by
  induction ops with
  | nil => intro w _ h; exact h
  | cons op rest ih =>
    intro w hops h
    refine ih (stepOp convert w op)
      (fun m hm => hops m (List.mem_cons_of_mem _ hm))
      (stepOp_LenInv convert w op (fun m hm => ?_) h)
    subst hm
    exact hops m (List.mem_cons_self _ _)

/-- C4 counterexample: from a genesis with positive session length 2, the
sequence `set_length(0)` then `check_rotate_session(2)` (a natural boundary)
reaches a state whose `SessionLength` is zero, refuting the unconditional
positivity claim. -/
theorem session_length_zero_reachable :
    0 < (genesisWorld ⟨[], 2, []⟩ emptyConsensus).session.sessionLength
    ∧ (runOps (fun _ => none) [.setLength 0, .checkRotate 0 2]
        (genesisWorld ⟨[], 2, []⟩ emptyConsensus)).session.sessionLength = 0 :=
  ⟨by decide, by decide⟩

/-- C4 (amended): from any genesis state with positive initial length, under
any sequence of `set_key`, `set_length`, `force_new_session` and
`check_rotate_session` calls in which every `set_length` argument is
positive, `SessionLength` stays strictly positive. -/
theorem session_length_positive_spec (convert : Nat → Option Nat)
    (cfg : GenesisConfig) (c : ConsensusState) (ops : List Op)
    (hcfg : 0 < cfg.session_length)
    (hops : ∀ m, Op.setLength m ∈ ops → 0 < m) :
    0 < (runOps convert ops (genesisWorld cfg c)).session.sessionLength :=
  (runOps_LenInv convert ops (genesisWorld cfg c) hops
    ⟨hcfg, fun _ hm => Option.noConfusion hm⟩).1

theorem session_length_positive_spec_witness :
    0 < (runOps (fun _ => none) [.setLength 3, .checkRotate 0 2]
        (genesisWorld ⟨[], 2, []⟩ emptyConsensus)).session.sessionLength :=
  session_length_positive_spec (fun _ => none) ⟨[], 2, []⟩ emptyConsensus
    [.setLength 3, .checkRotate 0 2] (by decide)
    (fun m hm => by simp at hm; omega)

end Session
